import Mathlib

/-!
Verification of the navigation engine of this repository against its specification.

The Python sources `pathfinding_astar.py`, `navegador_automatico_ncc.py` and
`gps_ncc_realtime.py` are shallowly embedded below.  Python `int` values become `ℤ`,
Python `float` values become `F64`, an exact model of IEEE-754 binary64 numbers in the
normal range: every float is represented exactly as `m * 2^e`, and each arithmetic
operation performs the exact computation followed by one round-to-nearest-ties-to-even
step, which is precisely what the hardware does for `+`, `-`, `*`, `/` and `sqrt` on
the values these programs manipulate (no overflow, no subnormals).  The trigonometric
constants used by the goal-substitution ring search are the exact rational values of
the float64 results of `math.cos`/`math.sin` at the 24 angles the code uses.
-/

set_option maxHeartbeats 2000000
set_option maxRecDepth 200000

/-- Fuel-bounded floor of log2; equals `⌊log₂ n⌋` for `2 ≤ n < 2^fuel`. -/
def natLog2F : ℕ → ℕ → ℕ
  | 0, _ => 0
  | fuel+1, n => if n ≤ 1 then 0 else natLog2F fuel (n / 2) + 1

/-- Number of binary digits of `n` (0 for 0); inputs in this development stay far
below `2^600`. -/
def bitlen (n : ℕ) : ℕ := if n = 0 then 0 else natLog2F 600 n + 1

/-- Fuel-bounded integer square root (floor); exact for `n < 4^fuel`. -/
def isqrtAux : ℕ → ℕ → ℕ
  | 0, _ => 0
  | fuel+1, n =>
    if n < 2 then n
    else
      let r := 2 * isqrtAux fuel (n / 4)
      if (r+1)*(r+1) ≤ n then r+1 else r

/-- Integer square root (floor), exact for `n < 4^300`. -/
def isqrtF (n : ℕ) : ℕ := isqrtAux 300 n

/-- A binary64 floating-point value, represented exactly as `m * 2^e`. -/
structure F64 where
  m : ℤ
  e : ℤ
deriving DecidableEq

/-- Round `(q + frac) / 2^shift` to the nearest integer, ties to even, where
`0 ≤ frac < 1` and `frac > 0` iff `sticky`; used with `shift ≥ 1`. -/
def roundWithSticky (q : ℤ) (shift : ℕ) (sticky : Bool) : ℤ :=
  let d : ℤ := 2 ^ shift
  let qq := Int.fdiv q d
  let r := q - qq * d
  let twice := 2 * r
  if twice < d then qq
  else if d < twice then qq + 1
  else if sticky then qq + 1
  else if qq % 2 = 0 then qq else qq + 1

/-- Round an exact value `m * 2^e` to 53 significant bits (round to nearest, ties to
even): IEEE-754 binary64 rounding in the normal range. -/
def fnorm53 (m : ℤ) (e : ℤ) : F64 :=
  if m = 0 then ⟨0, 0⟩
  else
    let b := bitlen m.natAbs
    if b ≤ 53 then ⟨m, e⟩
    else
      let s := b - 53
      ⟨roundWithSticky m s false, e + s⟩

def fneg (a : F64) : F64 := ⟨-a.m, a.e⟩

/-- Float addition: exact sum, then one rounding (IEEE-754 correct rounding). -/
def fadd (a b : F64) : F64 :=
  let e' := min a.e b.e
  fnorm53 (a.m * 2 ^ (a.e - e').toNat + b.m * 2 ^ (b.e - e').toNat) e'

def fsub (a b : F64) : F64 := fadd a (fneg b)

/-- Float multiplication: exact product, then one rounding. -/
def fmul (a b : F64) : F64 := fnorm53 (a.m * b.m) (a.e + b.e)

/-- Float division, correctly rounded using guard and sticky bits. -/
def fdivF (a b : F64) : F64 :=
  if b.m = 0 ∨ a.m = 0 then ⟨0, 0⟩
  else
    let n := if b.m < 0 then -a.m else a.m
    let d := if b.m < 0 then -b.m else b.m
    let s := 55 + bitlen d.natAbs
    let bigQ := Int.fdiv (n * 2 ^ s) d
    let sticky := decide (n * 2 ^ s ≠ bigQ * d)
    let shift := bitlen bigQ.natAbs - 53
    ⟨roundWithSticky bigQ shift sticky, a.e - b.e - s + shift⟩

/-- Float square root of a nonnegative float, correctly rounded. -/
def fsqrt (a : F64) : F64 :=
  if a.m ≤ 0 then ⟨0, 0⟩
  else
    let m' := if a.e % 2 = 0 then a.m else 2 * a.m
    let e' := if a.e % 2 = 0 then a.e else a.e - 1
    let t := m'.toNat * 2 ^ 128
    let s := isqrtF t
    let sticky := decide (t ≠ s * s)
    let shift := bitlen s - 53
    let d : ℕ := 2 ^ shift
    let q := s / d
    let r := s % d
    let mant : ℕ :=
      if 2 * r < d then q
      else if d < 2 * r then q + 1
      else if sticky then q + 1
      else if q % 2 = 0 then q else q + 1
    ⟨(mant : ℤ), (e' - 128) / 2 + shift⟩

/-- Conversion of a Python `int` to float; exact for the magnitudes in this program. -/
def fofInt (n : ℤ) : F64 := fnorm53 n 0

/-- Value-level comparison `a ≤ b` (the representation is not normalized). -/
def fle (a b : F64) : Bool :=
  let e' := min a.e b.e
  decide (a.m * 2 ^ (a.e - e').toNat ≤ b.m * 2 ^ (b.e - e').toNat)

/-- Value-level comparison `a < b`. -/
def flt (a b : F64) : Bool :=
  let e' := min a.e b.e
  decide (a.m * 2 ^ (a.e - e').toNat < b.m * 2 ^ (b.e - e').toNat)

/-- Value-level equality of floats. -/
def feq (a b : F64) : Bool :=
  let e' := min a.e b.e
  decide (a.m * 2 ^ (a.e - e').toNat = b.m * 2 ^ (b.e - e').toNat)

/-- Python `int(x)` on a float: truncation toward zero. -/
def fpyInt (a : F64) : ℤ :=
  if 0 ≤ a.e then a.m * 2 ^ a.e.toNat
  else Int.tdiv a.m (2 ^ (-a.e).toNat)

/-- The real value of a float. -/
noncomputable def F64.toReal (a : F64) : ℝ := (a.m : ℝ) * (2 : ℝ) ^ a.e

/-! ## Embedding of `pathfinding_astar.py` (`AStarPathfinder`) -/

abbrev Cell := ℤ × ℤ

/-- The pathfinder's walkability raster: image dimensions plus the binary mask
(`self.walkable_mask`), as a total function on coordinates. -/
structure Grid where
  width : ℤ
  height : ℤ
  mask : Cell → Bool

/-- Embeds `AStarPathfinder.is_walkable`: bounds test, then mask lookup (source lines
111-115). -/
def is_walkable (g : Grid) (x y : ℤ) : Bool :=
  if 0 ≤ x ∧ x < g.width ∧ 0 ≤ y ∧ y < g.height then g.mask (x, y) else false

/-- The numpy mask element access underlying `is_walkable`: defined only in bounds. -/
def mask_access (g : Grid) (x y : ℤ) : Option Bool :=
  if 0 ≤ x ∧ x < g.width ∧ 0 ≤ y ∧ y < g.height then some (g.mask (x, y)) else none

/-- Models `is_walkable` exactly as the source computes it: the guard, then the raster
access, which the guard keeps in bounds. -/
def is_walkable_total (g : Grid) (x y : ℤ) : Option Bool :=
  if 0 ≤ x ∧ x < g.width ∧ 0 ≤ y ∧ y < g.height then mask_access g x y
  else some false

/-- The float literal `1.4`, the diagonal move cost in `get_neighbors`. -/
def cost14 : F64 := ⟨3152519739159347, -51⟩

/-- The direction table of `get_neighbors`: N, E, S, W at cost 1.0, then the four
diagonals at cost 1.4 (source lines 127-136). -/
def directions : List (ℤ × ℤ × F64) :=
  [(0, -1, ⟨1, 0⟩), (1, 0, ⟨1, 0⟩), (0, 1, ⟨1, 0⟩), (-1, 0, ⟨1, 0⟩),
   (1, -1, cost14), (1, 1, cost14), (-1, 1, cost14), (-1, -1, cost14)]

/-- Embeds `AStarPathfinder.get_neighbors`: the walkable neighbors with their move cost. -/
def get_neighbors (g : Grid) (x y : ℤ) : List (ℤ × ℤ × F64) :=
  directions.filterMap (fun d =>
    if is_walkable g (x + d.1) (y + d.2.1) then some (x + d.1, y + d.2.1, d.2.2) else none)

/-- Embeds `AStarPathfinder.heuristic`: Euclidean distance; the squared terms are exact
Python integers, so only the square root rounds. -/
def heuristic (x1 y1 x2 y2 : ℤ) : F64 :=
  fsqrt (fofInt ((x2 - x1) ^ 2 + (y2 - y1) ^ 2))

/-- One entry of the `heapq` priority queue: `(f_score, counter, (x, y))`. -/
structure PQEntry where
  f : F64
  counter : ℕ
  cell : Cell

/-- The tuple order `heapq` uses on these entries; counters are unique, so the
comparison never reaches the cell component. -/
def entryLT (a b : PQEntry) : Bool :=
  flt a.f b.f || (feq a.f b.f && a.counter < b.counter)

/-- Embeds `heapq.heappop`: return and remove the least entry. -/
def popMin (l : List PQEntry) : Option (PQEntry × List PQEntry) :=
  match l with
  | [] => none
  | h :: t =>
    let best := t.foldl (fun acc e => if entryLT e acc then e else acc) h
    some (best, l.filter (fun e => e.counter ≠ best.counter))

/-- Lookup in a Python dict modeled as an association list (later bindings shadow
earlier ones). -/
def alookup {α : Type} (l : List (Cell × α)) (k : Cell) : Option α :=
  (l.find? (fun p => p.1 = k)).map (fun p => p.2)

/-- Dict update. -/
def aset {α : Type} (l : List (Cell × α)) (k : Cell) (v : α) : List (Cell × α) :=
  (k, v) :: l

/-- The `while current in came_from` chain of `find_path`'s path reconstruction. -/
def chainOf (came : List (Cell × Cell)) : ℕ → Cell → List Cell
  | 0, _ => []
  | fuel+1, c =>
    match alookup came c with
    | none => []
    | some p => c :: chainOf came fuel p

/-- Path reconstruction in `find_path`: follow `came_from` from the goal, append the
start, and reverse (source lines 213-219). -/
def reconstruct (came : List (Cell × Cell)) (start goal : Cell) : List Cell :=
  ((chainOf came (came.length + 1) goal) ++ [start]).reverse

/-- The mutable state of the A* main loop. -/
structure AStarState where
  openL : List PQEntry
  hash : List Cell
  came : List (Cell × Cell)
  gsc : List (Cell × F64)
  counter : ℕ

/-- Relaxation of one neighbor (body of the `for nx, ny, move_cost` loop, source
lines 226-239). -/
def relaxOne (goal : Cell) (cur : Cell) (st : AStarState) (nb : ℤ × ℤ × F64) : AStarState :=
  let neighbor : Cell := (nb.1, nb.2.1)
  let tentative := fadd ((alookup st.gsc cur).getD ⟨0, 0⟩) nb.2.2
  let better :=
    match alookup st.gsc neighbor with
    | none => true
    | some old => flt tentative old
  if better then
    let came' := aset st.came neighbor cur
    let gsc' := aset st.gsc neighbor tentative
    let fv := fadd tentative (heuristic neighbor.1 neighbor.2 goal.1 goal.2)
    if st.hash.contains neighbor then
      { st with came := came', gsc := gsc' }
    else
      { openL := ⟨fv, st.counter, neighbor⟩ :: st.openL
        hash := neighbor :: st.hash
        came := came'
        gsc := gsc'
        counter := st.counter + 1 }
  else st

/-- The A* `while open_set and iterations < max_iterations` loop; the fuel is the
remaining iteration budget.  (The write-only `f_score` dict of the source is omitted:
it is never read.) -/
def astarLoop (g : Grid) (start goal : Cell) : ℕ → AStarState → Option (List Cell)
  | 0, _ => none
  | fuel+1, st =>
    match popMin st.openL with
    | none => none
    | some (cur, rest) =>
      let st := { st with openL := rest, hash := st.hash.filter (fun c => c ≠ cur.cell) }
      if cur.cell = goal then some (reconstruct st.came start goal)
      else
        let st := (get_neighbors g cur.cell.1 cur.cell.2).foldl (relaxOne goal cur.cell) st
        astarLoop g start goal fuel st

/-- Exact float64 values of `math.cos(math.radians(15 * k))` for `k = 0 … 23`,
as produced by the C library on the reference platform. -/
def cosT : List F64 :=
  [⟨1, 0⟩, ⟨8700286382685973, -53⟩, ⟨7800463371553963, -53⟩, ⟨6369051672525773, -53⟩,
   ⟨4503599627370497, -53⟩, ⟨291404338770025, -50⟩, ⟨4967757600021511, -106⟩,
   ⟨-2331234710160201, -53⟩, ⟨-2251799813685247, -52⟩, ⟨-1592262918131443, -51⟩,
   ⟨-7800463371553963, -53⟩, ⟨-2175071595671493, -51⟩, ⟨-1, 0⟩,
   ⟨-8700286382685973, -53⟩, ⟨-3900231685776981, -52⟩, ⟨-3184525836262887, -52⟩,
   ⟨-1125899906842625, -51⟩, ⟨-2331234710160199, -53⟩, ⟨-3725818200016133, -104⟩,
   ⟨582808677540049, -51⟩, ⟨4503599627370497, -53⟩, ⟨6369051672525771, -53⟩,
   ⟨975057921444245, -50⟩, ⟨8700286382685973, -53⟩]

/-- Exact float64 values of `math.sin(math.radians(15 * k))` for `k = 0 … 23`. -/
def sinT : List F64 :=
  [⟨0, 0⟩, ⟨291404338770025, -50⟩, ⟨9007199254740991, -54⟩, ⟨1592262918131443, -51⟩,
   ⟨3900231685776981, -52⟩, ⟨8700286382685973, -53⟩, ⟨1, 0⟩,
   ⟨8700286382685973, -53⟩, ⟨7800463371553963, -53⟩, ⟨6369051672525773, -53⟩,
   ⟨9007199254740991, -54⟩, ⟨4662469420320405, -54⟩, ⟨4967757600021511, -105⟩,
   ⟨-4662469420320401, -54⟩, ⟨-4503599627370497, -53⟩, ⟨-1592262918131443, -51⟩,
   ⟨-975057921444245, -50⟩, ⟨-8700286382685973, -53⟩, ⟨-1, 0⟩,
   ⟨-4350143191342987, -52⟩, ⟨-3900231685776981, -52⟩, ⟨-3184525836262887, -52⟩,
   ⟨-1125899906842625, -51⟩, ⟨-4662469420320399, -54⟩]

/-- The candidate cells of `find_path`'s expanding-ring goal substitution, in scan
order: radius 5, 10, …, 95 (outer loop), angle 0°, 15°, …, 345° (inner loop); each
candidate is `(int(gx + r·cos θ), int(gy + r·sin θ))` computed in float64 arithmetic
(source lines 171-175). -/
def ringCandidates (gx gy : ℤ) : List Cell :=
  (List.range 19).flatMap (fun ri =>
    (List.range 24).map (fun ai =>
      let r : F64 := fofInt (5 + 5 * (ri : ℤ))
      let c := cosT.getD ai ⟨0, 0⟩
      let s := sinT.getD ai ⟨0, 0⟩
      (fpyInt (fadd (fofInt gx) (fmul r c)), fpyInt (fadd (fofInt gy) (fmul r s)))))

/-- The goal actually searched for: the goal itself when walkable, otherwise the
first walkable ring candidate in scan order (the `break`/`else: continue`/`break`
construct of source lines 170-186). -/
def effective_goal (g : Grid) (gx gy : ℤ) : Option Cell :=
  if is_walkable g gx gy then some (gx, gy)
  else (ringCandidates gx gy).find? (fun c => is_walkable g c.1 c.2)

/-- Embeds `AStarPathfinder.find_path` (source lines 150-242). -/
def find_path (g : Grid) (sx sy gx gy : ℤ) (maxIter : ℕ) : Option (List Cell) :=
  if ¬ is_walkable g sx sy then none
  else
    match effective_goal g gx gy with
    | none => none
    | some goal =>
      let start : Cell := (sx, sy)
      astarLoop g start goal maxIter
        { openL := [⟨⟨0, 0⟩, 0, start⟩]
          hash := [start]
          came := []
          gsc := [(start, ⟨0, 0⟩)]
          counter := 1 }

/-- Bresenham loop of `_has_line_of_sight` (source lines 320-334); the fuel
`|dx| + |dy| + 1` bounds the number of steps, each of which advances `x` or `y`. -/
def losAux (g : Grid) (x2 y2 sx sy dx dy : ℤ) : ℕ → ℤ → ℤ → ℤ → Bool
  | 0, _, _, _ => true
  | fuel+1, x, y, err =>
    if ¬ is_walkable g x y then false
    else if x = x2 ∧ y = y2 then true
    else
      let e2 := 2 * err
      let x' := if e2 > -dy then x + sx else x
      let err' := if e2 > -dy then err - dy else err
      let y' := if e2 < dx then y + sy else y
      let err'' := if e2 < dx then err' + dx else err'
      losAux g x2 y2 sx sy dx dy fuel x' y' err''

/-- Embeds `AStarPathfinder._has_line_of_sight`: every cell on the Bresenham rasterization
of the segment is walkable. -/
def has_line_of_sight (g : Grid) (x1 y1 x2 y2 : ℤ) : Bool :=
  let dx := |x2 - x1|
  let dy := |y2 - y1|
  let sx : ℤ := if x1 < x2 then 1 else -1
  let sy : ℤ := if y1 < y2 then 1 else -1
  losAux g x2 y2 sx sy dx dy (dx + dy + 1).toNat x1 y1 (dx - dy)

/-- Euclidean distance between integer points, computed as the source does:
`np.sqrt` of an exact integer sum of squares. -/
def distF (x1 y1 x2 y2 : ℤ) : F64 :=
  fsqrt (fofInt ((x2 - x1) ^ 2 + (y2 - y1) ^ 2))

/-- Backward scan of `simplify_path` (source lines 269-286): from the end of the path
down to just above `current`, the first index at distance in `[50, maxD]` from
`(x1, y1)` with line of sight. -/
def findBestDesc (g : Grid) (path : List Cell) (x1 y1 maxD : ℤ) (current : ℕ) : Option ℕ :=
  ((List.range (path.length - 1 - current)).map (fun k => path.length - 1 - k)).find?
    (fun i =>
      let p := path.getD i (0, 0)
      let dist := distF x1 y1 p.1 p.2
      !flt dist (fofInt 50) && !flt (fofInt maxD) dist &&
        has_line_of_sight g x1 y1 p.1 p.2)

/-- First fallback of `simplify_path` (source lines 290-297): the nearest forward
index at distance ≥ 50, with no line-of-sight check. -/
def findFallbackAsc (path : List Cell) (x1 y1 : ℤ) (current : ℕ) : Option ℕ :=
  ((List.range (path.length - (current + 1))).map (fun k => current + 1 + k)).find?
    (fun i =>
      let p := path.getD i (0, 0)
      fle (fofInt 50) (distF x1 y1 p.1 p.2))

/-- The index chosen by one `simplify_path` iteration at `current`: the backward
line-of-sight scan, then the distance-only fallback, then the immediate next point. -/
def simplifyChoice (g : Grid) (path : List Cell) (maxD : ℤ) (current : ℕ) : ℕ :=
  match findBestDesc g path (path.getD current (0, 0)).1 (path.getD current (0, 0)).2
      maxD current with
  | some i => i
  | none =>
    match findFallbackAsc path (path.getD current (0, 0)).1 (path.getD current (0, 0)).2
        current with
    | some i => i
    | none => current + 1

/-- The `while current_idx < len(path) - 1` loop of `simplify_path`; the chosen index
strictly increases, so `path.length` steps of fuel suffice. -/
def simplifyAux (g : Grid) (path : List Cell) (maxD : ℤ) : ℕ → ℕ → List Cell → List Cell
  | 0, _, acc => acc.reverse
  | fuel+1, current, acc =>
    if current + 1 < path.length then
      simplifyAux g path maxD fuel (simplifyChoice g path maxD current)
        (path.getD (simplifyChoice g path maxD current) (0, 0) :: acc)
    else acc.reverse

/-- Embeds `AStarPathfinder.simplify_path` (source lines 244-307); `min_distance` is the
constant 50, `maxD` the `max_distance` argument. -/
def simplify_path (g : Grid) (path : List Cell) (maxD : ℤ) : List Cell :=
  if path.length ≤ 2 then path
  else simplifyAux g path maxD path.length 0 [path.getD 0 (0, 0)]

/-- The specification's path-validity property for a simplified path: every waypoint
walkable, and every consecutive pair with obstacle-free line of sight. -/
def simplifiedOk (g : Grid) (p : List Cell) : Bool :=
  p.all (fun c => is_walkable g c.1 c.2) &&
  (p.zip p.tail).all (fun q => has_line_of_sight g q.1.1 q.1.2 q.2.1 q.2.2)

/-! ## Embedding of the walkability-raster builder
(`_create_walkable_mask`, `_apply_wall_margin`, source lines 41-109) -/

/-- A BGR color image: dimensions plus per-pixel channel values. -/
structure ColorImg where
  width : ℤ
  height : ℤ
  pix : Cell → ℕ × ℕ × ℕ

/-- The per-pixel test of `_create_walkable_mask`: some channel exceeds 10
(`(b > 10) | (g > 10) | (r > 10)`, source line 69). -/
def coloridoPix (p : ℕ × ℕ × ℕ) : Bool :=
  decide (10 < p.1 ∨ 10 < p.2.1 ∨ 10 < p.2.2)

/-- Embeds `AStarPathfinder._create_walkable_mask` at one pixel. -/
def create_walkable_mask (img : ColorImg) (x y : ℤ) : Bool :=
  coloridoPix (img.pix (x, y))

/-- Half-width of row `dy` of `cv2.getStructuringElement(MORPH_ELLIPSE)` for a
`(2m+1)×(2m+1)` kernel: `cvRound(sqrt(m² - dy²))`; the square root of an integer is
never exactly half-odd, so rounding has no ties. -/
def ellipseHalfWidth (m dy : ℕ) : ℕ :=
  let k := m * m - dy * dy
  let s := isqrtF k
  if k ≤ s * s + s then s else s + 1

/-- The offsets of the nonzero elements of the elliptic structuring element of radius
`m`, relative to its center anchor. -/
def kernelOffsets (m : ℕ) : List Cell :=
  (List.range (2 * m + 1)).flatMap (fun i =>
    (List.range (2 * ellipseHalfWidth m ((i : ℤ) - (m : ℤ)).natAbs + 1)).map
      (fun j : ℕ => ((j : ℤ) - (ellipseHalfWidth m ((i : ℤ) - (m : ℤ)).natAbs : ℤ),
                 (i : ℤ) - (m : ℤ))))

/-- Embeds `AStarPathfinder._apply_wall_margin` at one pixel: the obstacle mask is dilated
by the elliptic kernel (`cv2.dilate`, border pixels contribute nothing), and a pixel
stays walkable iff no dilated wall covers it (source lines 78-109). -/
def apply_wall_margin (mask : ℤ → ℤ → Bool) (w h : ℤ) (margin : ℕ) (x y : ℤ) : Bool :=
  ! (kernelOffsets margin).any (fun o =>
      decide (0 ≤ x + o.1 ∧ x + o.1 < w ∧ 0 ≤ y + o.2 ∧ y + o.2 < h) &&
        ! mask (x + o.1) (y + o.2))

/-! ## Embedding of `navegador_automatico_ncc.py` (`NavegadorAutomaticoNCC`) -/

/-- The navigator's calibration state: `centro_x/y`, `escala_x/y` and the
`map_region` rectangle from `self.gps.map_calib`. -/
structure NavConfig where
  centroX : ℤ
  centroY : ℤ
  escalaX : F64
  escalaY : F64
  regionX : ℤ
  regionY : ℤ
  regionW : ℤ
  regionH : ℤ

/-- The raw screen coordinate computed inside `mundo_to_tela` before clamping:
`(int(centro_x + delta_x * escala_x), int(centro_y + delta_y * escala_y))`
(source lines 196-201). -/
def rawTela (cfg : NavConfig) (xm ym xa ya : ℤ) : Cell :=
  (fpyInt (fadd (fofInt cfg.centroX) (fmul (fofInt (xm - xa)) cfg.escalaX)),
   fpyInt (fadd (fofInt cfg.centroY) (fmul (fofInt (ym - ya)) cfg.escalaY)))

/-- Embeds `NavegadorAutomaticoNCC.mundo_to_tela` (source lines 179-227): the raw transform
followed by clamping into the clickable rectangle with UI margins 120 (x) and
100 (y). -/
def mundo_to_tela (cfg : NavConfig) (xm ym xa ya : ℤ) : Cell :=
  let raw := rawTela cfg xm ym xa ya
  (max (cfg.regionX + 120) (min (cfg.regionX + cfg.regionW - 120) raw.1),
   max (cfg.regionY + 100) (min (cfg.regionY + cfg.regionH - 100) raw.2))

/-- The caller-side click-validity check used at source lines 1117-1118, 1231-1232,
1301-1302 and 1329-1330: the screen point lies inside the same margined clickable
rectangle that `mundo_to_tela` clamps into. -/
def clique_valido (cfg : NavConfig) (c : Cell) : Bool :=
  decide (cfg.regionX + 120 ≤ c.1 ∧ c.1 ≤ cfg.regionX + cfg.regionW - 120 ∧
          cfg.regionY + 100 ≤ c.2 ∧ c.2 ≤ cfg.regionY + cfg.regionH - 100)

/-- Embeds `NavegadorAutomaticoNCC.clicar_no_mapa` (source lines 256-283): the screen
coordinate actually sent to `input tap` is exactly the output of `mundo_to_tela`. -/
def clicar_no_mapa (cfg : NavConfig) (xm ym xa ya : ℤ) : Cell :=
  mundo_to_tela cfg xm ym xa ya

/-- The numpy pixel access on the colored map: defined only in bounds. -/
def pix_access (img : ColorImg) (x y : ℤ) : Option (ℕ × ℕ × ℕ) :=
  if 0 ≤ x ∧ x < img.width ∧ 0 ≤ y ∧ y < img.height then some (img.pix (x, y)) else none

/-- Embeds `NavegadorAutomaticoNCC._tem_chao` (source lines 764-790): bounds check, then
the colored-map pixel must not be near-black. -/
def tem_chao (img : ColorImg) (x y : ℤ) : Bool :=
  if 0 ≤ x ∧ x < img.width ∧ 0 ≤ y ∧ y < img.height then coloridoPix (img.pix (x, y))
  else false

/-- Models `_tem_chao` exactly as the source computes it: the guard, then the pixel access
the guard keeps in bounds. -/
def tem_chao_total (img : ColorImg) (x y : ℤ) : Option Bool :=
  if 0 ≤ x ∧ x < img.width ∧ 0 ≤ y ∧ y < img.height then
    (pix_access img x y).map coloridoPix
  else some false

/-- Embeds `NavegadorAutomaticoNCC.is_walkable` (source lines 229-254): bounds check
against the colored map, then delegation to the pathfinder's `is_walkable`. -/
def nav_is_walkable (img : ColorImg) (g : Grid) (x y : ℤ) : Bool :=
  if 0 ≤ x ∧ x < img.width ∧ 0 ≤ y ∧ y < img.height then is_walkable g x y
  else false

/-- Models `NavegadorAutomaticoNCC.is_walkable` with its debug pixel fetch made explicit:
after the guard it reads `mapa_colorido[y, x]` (in bounds by the guard) and then
delegates to the pathfinder. -/
def nav_is_walkable_total (img : ColorImg) (g : Grid) (x y : ℤ) : Option Bool :=
  if 0 ≤ x ∧ x < img.width ∧ 0 ≤ y ∧ y < img.height then
    (pix_access img x y).map (fun _ => is_walkable g x y)
  else some false

/-- Embeds `raio_visivel_x` of the navigation loop: `int((width / 2) / escala_x)` (source
line 1082); the spec's field-of-view half-extent in x. -/
def raio_visivel_x (cfg : NavConfig) : ℤ :=
  fpyInt (fdivF (fdivF (fofInt cfg.regionW) (fofInt 2)) cfg.escalaX)

/-- Embeds `raio_visivel_y`: `int((height / 2) / escala_y)` (source line 1083). -/
def raio_visivel_y (cfg : NavConfig) : ℤ :=
  fpyInt (fdivF (fdivF (fofInt cfg.regionH) (fofInt 2)) cfg.escalaY)

/-- Embeds `raio_clicavel_x`: `int(((width - 240) / 2) / escala_x)` (source line 1187). -/
def raio_clicavel_x (cfg : NavConfig) : ℤ :=
  fpyInt (fdivF (fdivF (fofInt (cfg.regionW - 240)) (fofInt 2)) cfg.escalaX)

/-- Embeds `raio_clicavel_y`: `int(((height - 200) / 2) / escala_y)` (source line 1188). -/
def raio_clicavel_y (cfg : NavConfig) : ℤ :=
  fpyInt (fdivF (fdivF (fofInt (cfg.regionH - 200)) (fofInt 2)) cfg.escalaY)

/-- Stands for Python `float('inf')` in the nearest-point scans; every distance the
program computes is far below `2^1000`. -/
def fInf : F64 := ⟨1, 1000⟩

/-- The index-update block of the navigation loop (source lines 1140-1166): when the
player has moved more than 50 px from the current path index, re-aim the cursor just
past the nearest forward path point, provided that point is within 50 px. -/
def updateIndice (path : List Cell) (xa ya : ℤ) (ind0 : ℕ) : ℕ :=
  if ind0 < path.length then
    let p := path.getD ind0 (0, 0)
    if flt (fofInt 50) (distF xa ya p.1 p.2) then
      let res := (List.range' ind0 (path.length - ind0)).foldl
        (fun (acc : ℕ × F64) i =>
          let q := path.getD i (0, 0)
          let d := distF xa ya q.1 q.2
          if flt d acc.2 then (i, d) else acc) (ind0, fInf)
      if flt res.2 (fofInt 50) then min (res.1 + 1) (path.length - 1) else ind0
    else ind0
  else ind0

/-- Whether a world point is inside the visible area `player ± raio_visivel`
(source lines 1090-1093 and the filter at 1205-1206). -/
def visivel (cfg : NavConfig) (xa ya px py : ℤ) : Bool :=
  decide (xa - raio_visivel_x cfg ≤ px ∧ px ≤ xa + raio_visivel_x cfg ∧
          ya - raio_visivel_y cfg ≤ py ∧ py ≤ ya + raio_visivel_y cfg)

/-- The `pontos_visiveis` list of the navigation loop (source lines 1200-1212):
forward path points that are visible, at distance in `[30, distMax]`, and on colored
ground. -/
def pontos_visiveis (cfg : NavConfig) (img : ColorImg) (path : List Cell)
    (ind1 : ℕ) (xa ya distMax : ℤ) : List (ℕ × Cell × F64) :=
  (List.range' ind1 (path.length - ind1)).filterMap (fun i =>
    let p := path.getD i (0, 0)
    let dist := distF xa ya p.1 p.2
    if visivel cfg xa ya p.1 p.2 && fle (fofInt 30) dist && fle dist (fofInt distMax) &&
        tem_chao img p.1 p.2 then
      some (i, p, dist)
    else none)

/-- Stable insertion (descending by distance) matching Python's stable
`sort(key=dist, reverse=True)`. -/
def insertDesc (t : ℕ × Cell × F64) : List (ℕ × Cell × F64) → List (ℕ × Cell × F64)
  | [] => [t]
  | h :: rest => if flt h.2.2 t.2.2 then t :: h :: rest else h :: insertDesc t rest

/-- Stable descending sort by distance. -/
def sortDesc (l : List (ℕ × Cell × F64)) : List (ℕ × Cell × F64) :=
  l.foldl (fun acc t => insertDesc t acc) []

/-- The selection over the sorted visible points (source lines 1226-1238): the
farthest visible point whose projected click passes `clique_valido`. -/
def escolher_visivel (cfg : NavConfig) (xa ya : ℤ)
    (sorted : List (ℕ × Cell × F64)) : Option (ℕ × Cell × F64) :=
  sorted.find? (fun t => clique_valido cfg (mundo_to_tela cfg t.2.1.1 t.2.1.2 xa ya))

/-- The advance-index fallback (source lines 1259-1269): the first forward path point
at distance ≥ 30, with no visibility check. -/
def avancarIndice (path : List Cell) (xa ya : ℤ) (ind1 : ℕ) : Option (ℕ × Cell) :=
  ((List.range' (ind1 + 1) (path.length - (ind1 + 1))).find? (fun i =>
    let p := path.getD i (0, 0)
    fle (fofInt 30) (distF xa ya p.1 p.2))).map (fun i => (i, path.getD i (0, 0)))

/-- The step-4 rescue scan (source lines 1291-1308): among the next 50 path indices,
the first point at distance ≥ 30, on ground, whose projected click passes
`clique_valido`. -/
def resgatePonto (cfg : NavConfig) (img : ColorImg) (path : List Cell)
    (ind : ℕ) (xa ya : ℤ) : Option (ℕ × Cell) :=
  ((List.range' ind (min (ind + 50) path.length - ind)).find? (fun i =>
    let p := path.getD i (0, 0)
    fle (fofInt 30) (distF xa ya p.1 p.2) && tem_chao img p.1 p.2 &&
      clique_valido cfg (mundo_to_tela cfg p.1 p.2 xa ya))).map
    (fun i => (i, path.getD i (0, 0)))

/-- Which branch of the waypoint-selection step produced the result. -/
inductive SelKind where
  | direto
  | viaPath
  | avancar
  | destinoFinal
  | semPath
  | resgate
  | skip
  | staleReuse
  | staleCrash
deriving DecidableEq

/-- Result of the waypoint-selection step: the final value of the Python variables
`wp_x, wp_y` (which may be `None`), the updated path index, and the branch taken. -/
structure SelResult where
  binding : Option Cell
  indice : ℕ
  kind : SelKind
deriving DecidableEq

/-- The path-following part of the waypoint-selection step (source lines 1130-1314):
index update, the visible-points selection, and the three fallbacks (advance-index,
literal destination, step-4 rescue, skip). -/
def selectFromPath (cfg : NavConfig) (img : ColorImg) (path : List Cell)
    (ind0 : ℕ) (xa ya dx dy : ℤ) : SelResult :=
  if path.isEmpty then ⟨some (dx, dy), ind0, .semPath⟩
  else
    if (pontos_visiveis cfg img path (updateIndice path xa ya ind0) xa ya
        (min (raio_clicavel_x cfg) (raio_clicavel_y cfg))).isEmpty then
      match avancarIndice path xa ya (updateIndice path xa ya ind0) with
      | some ip => ⟨some ip.2, ip.1, .avancar⟩
      | none => ⟨some (dx, dy), updateIndice path xa ya ind0, .destinoFinal⟩
    else
      match escolher_visivel cfg xa ya (sortDesc (pontos_visiveis cfg img path
          (updateIndice path xa ya ind0) xa ya
          (min (raio_clicavel_x cfg) (raio_clicavel_y cfg)))) with
      | some t => ⟨some t.2.1, t.1, .viaPath⟩
      | none =>
        match resgatePonto cfg img path (updateIndice path xa ya ind0) xa ya with
        | some ip => ⟨some ip.2, ip.1, .resgate⟩
        | none => ⟨none, min (updateIndice path xa ya ind0 + 10) (path.length - 1), .skip⟩

/-- The waypoint-selection step of `navegar_para_coordenadas` (source lines
1090-1314), as a pure function of the believed position `(xa, ya)`, the destination
`(dx, dy)`, the path, the path cursor, and the stuck counter.  `prevWp` is the value
of `wp_x, wp_y` left over from the previous loop iteration: when the direct-click
branch rejects its click, Python falls through with that stale binding (a `NameError`
on the first iteration, modeled by `staleCrash`). -/
def selectWaypoint (cfg : NavConfig) (g : Grid) (img : ColorImg)
    (path? : Option (List Cell)) (ind0 cliques : ℕ) (xa ya dx dy : ℤ)
    (prevWp : Option Cell) : SelResult :=
  if visivel cfg xa ya dx dy && fle (fofInt 30) (distF xa ya dx dy) && cliques == 0 &&
      path?.isSome && nav_is_walkable img g dx dy then
    if clique_valido cfg (mundo_to_tela cfg dx dy xa ya) then ⟨some (dx, dy), ind0, .direto⟩
    else
      match prevWp with
      | none => ⟨none, ind0, .staleCrash⟩
      | some w => ⟨some w, ind0, .staleReuse⟩
  else
    match path? with
    | some path => selectFromPath cfg img path ind0 xa ya dx dy
    | none => ⟨some (dx, dy), ind0, .semPath⟩

/-- The navigation loop's per-iteration mutable state. -/
structure NavState where
  step : ℕ
  indice : ℕ
  cliques : ℕ
  posAnterior : Option Cell
  prevWp : Option Cell
  path : Option (List Cell)
deriving DecidableEq

/-- Externally observable actions of one loop iteration.  `gpsFix` is a call of
`gps.get_current_position` (the full image-correlation Position Estimator);
`waitArrival` is the opaque `aguardar_chegada` wait (whose own internal captures and
GPS confirmations are not re-listed here). -/
inductive NavEffect where
  | gpsFix
  | tap (c : Cell)
  | waitArrival
  | closeMap
deriving DecidableEq

/-- Outcome of one loop iteration. -/
inductive TickOutcome where
  | done (ok : Bool)
  | next (st : NavState)
  | crash
deriving DecidableEq

/-- The first index of the path at distance > 50 from the player (the stuck-on-direct
reset, source lines 1376-1382). -/
def resetIndice (path : List Cell) (xa ya : ℤ) (ind : ℕ) : ℕ :=
  match (List.range path.length).find? (fun i =>
    let p := path.getD i (0, 0)
    flt (fofInt 50) (distF xa ya p.1 p.2)) with
  | some i => i
  | none => ind

/-- Everything one iteration of the `while step < max_steps` loop of
`navegar_para_coordenadas` does after its opening `get_current_position` call
(source lines 1027-1382): stuck-counter update, arrival test, waypoint selection,
the final click-limits check, the tap, and the arrival wait. -/
def navStepRest (cfg : NavConfig) (g : Grid) (img : ColorImg) (dest : Cell)
    (st : NavState) (gpsPos : Cell) (chegou : Bool) : List NavEffect × TickOutcome :=
  let xa := gpsPos.1
  let ya := gpsPos.2
  let cliques' :=
    match st.posAnterior with
    | none => st.cliques
    | some p => if p = gpsPos then st.cliques + 1 else 0
  if fle (distF xa ya dest.1 dest.2) (fofInt 30) then ([.closeMap], .done true)
  else
    let sel := selectWaypoint cfg g img st.path st.indice cliques' xa ya dest.1 dest.2
      st.prevWp
    match sel.kind, sel.binding with
    | .staleCrash, _ => ([], .crash)
    | _, none =>
      ([], .next { step := st.step + 1, indice := sel.indice, cliques := cliques',
                   posAnterior := some gpsPos, prevWp := none, path := st.path })
    | _, some wp =>
      let clique := mundo_to_tela cfg wp.1 wp.2 xa ya
      if ¬ clique_valido cfg clique then
        ([], .next { step := st.step + 1,
                     indice := min (sel.indice + 10) ((st.path.getD []).length - 1),
                     cliques := cliques', posAnterior := some gpsPos,
                     prevWp := some wp, path := st.path })
      else
        let ind2 :=
          if ¬ chegou ∧ wp = dest ∧ 2 ≤ cliques' then
            resetIndice (st.path.getD []) xa ya sel.indice
          else sel.indice
        ([.tap clique, .waitArrival],
         .next { step := st.step + 1, indice := ind2, cliques := cliques',
                 posAnterior := some gpsPos, prevWp := some wp, path := st.path })

/-- One full iteration of the navigation loop: its first action, unconditionally, is
the `get_current_position` call of source line 1027 (a full Position Estimator
re-localization); then everything else. -/
def navStep (cfg : NavConfig) (g : Grid) (img : ColorImg) (dest : Cell)
    (st : NavState) (gpsPos : Cell) (chegou : Bool) : List NavEffect × TickOutcome :=
  let r := navStepRest cfg g img dest st gpsPos chegou
  (.gpsFix :: r.1, r.2)

/-! ## Embedding of `gps_ncc_realtime.py` (confidence mapping) -/

/-- The float literal `0.1`. -/
def f01 : F64 := ⟨3602879701896397, -55⟩

/-- The float literal `0.2`. -/
def f02 : F64 := ⟨3602879701896397, -54⟩

/-- The float literal `0.3`. -/
def f03 : F64 := ⟨5404319552844595, -54⟩

/-- The confidence mapping of `find_position_ncc` (source lines 274-282), a function
of the correlation error alone. -/
def confidence_of_error (error : F64) : ℤ :=
  if flt error f01 then 95
  else if flt error f02 then 85
  else if flt error f03 then 70
  else max 50 (100 - fpyInt (fmul error (fofInt 100)))

/-! ## Auxiliary lemmas -/

/-- Characterization of `List.find?`: a found element is the first satisfying one. -/
theorem find?_split {α : Type} (p : α → Bool) :
    ∀ (l : List α) (a : α), l.find? p = some a →
      ∃ l1 l2, l = l1 ++ a :: l2 ∧ p a = true ∧ ∀ x ∈ l1, p x = false := by
  intro l
  induction l with
  | nil => intro a h; simp [List.find?] at h
  | cons x t ih =>
    intro a h
    by_cases hx : p x = true
    · rw [List.find?_cons_of_pos _ hx] at h
      obtain rfl : x = a := by injection h
      exact ⟨[], t, rfl, hx, by simp⟩
    · rw [List.find?_cons_of_neg _ (by simpa using hx)] at h
      obtain ⟨l1, l2, rfl, hpa, hall⟩ := ih a h
      refine ⟨x :: l1, l2, rfl, hpa, ?_⟩
      intro z hz
      rcases List.mem_cons.mp hz with rfl | hz'
      · simpa using hx
      · exact hall z hz'

/-- Insertion into the descending sort preserves membership. -/
theorem mem_insertDesc {a t : ℕ × Cell × F64} :
    ∀ {l : List (ℕ × Cell × F64)}, a ∈ insertDesc t l → a = t ∨ a ∈ l := by
  intro l
  induction l with
  | nil => intro h; simpa [insertDesc] using h
  | cons h' rest ih =>
    intro hm
    unfold insertDesc at hm
    split at hm
    · rcases List.mem_cons.mp hm with rfl | hm'
      · exact Or.inl rfl
      · exact Or.inr hm'
    · rcases List.mem_cons.mp hm with rfl | hm'
      · exact Or.inr (List.mem_cons_self _ _)
      · rcases ih hm' with rfl | hh
        · exact Or.inl rfl
        · exact Or.inr (List.mem_cons_of_mem _ hh)

/-- The stable descending sort is a permutation-level subset of its input. -/
theorem mem_sortDesc {a : ℕ × Cell × F64} {l : List (ℕ × Cell × F64)}
    (h : a ∈ sortDesc l) : a ∈ l := by
  suffices H : ∀ (l acc : List (ℕ × Cell × F64)),
      a ∈ l.foldl (fun acc t => insertDesc t acc) acc → a ∈ acc ∨ a ∈ l by
    rcases H l [] h with h' | h'
    · simp at h'
    · exact h'
  intro l
  induction l with
  | nil =>
    intro acc h'
    simp only [List.foldl_nil] at h'
    exact Or.inl h'
  | cons x t ih =>
    intro acc h'
    rcases ih (insertDesc x acc) h' with h'' | h''
    · rcases mem_insertDesc h'' with rfl | h3
      · exact Or.inr (List.mem_cons_self _ _)
      · exact Or.inl h3
    · exact Or.inr (List.mem_cons_of_mem _ h'')

/-- Every entry of `pontos_visiveis` lies inside the visible area. -/
theorem mem_pontos_visiveis_visivel {cfg : NavConfig} {img : ColorImg}
    {path : List Cell} {ind1 : ℕ} {xa ya distMax : ℤ} {t : ℕ × Cell × F64}
    (h : t ∈ pontos_visiveis cfg img path ind1 xa ya distMax) :
    visivel cfg xa ya t.2.1.1 t.2.1.2 = true := by
  unfold pontos_visiveis at h
  rw [List.mem_filterMap] at h
  obtain ⟨i, _, heq⟩ := h
  simp only [] at heq
  split at heq
  · rename_i hcond
    cases heq
    simp only [Bool.and_eq_true] at hcond
    exact hcond.1.1.1
  · exact absurd heq (by simp)

/-- A `getD` at an in-range index is a member. -/
theorem getD_mem_of_lt {l : List Cell} {i : ℕ} (h : i < l.length) :
    l.getD i (0, 0) ∈ l := by
  rw [List.getD_eq_getElem?_getD, List.getElem?_eq_getElem h]
  exact List.getElem_mem h

/-- The backward scan returns an in-range index. -/
theorem findBestDesc_lt {g : Grid} {path : List Cell} {x1 y1 maxD : ℤ}
    {current i : ℕ} (h : findBestDesc g path x1 y1 maxD current = some i) :
    i < path.length := by
  have hm := List.mem_of_find?_eq_some h
  rw [List.mem_map] at hm
  obtain ⟨k, hk, rfl⟩ := hm
  rw [List.mem_range] at hk
  omega

/-- The first fallback returns an in-range index. -/
theorem findFallbackAsc_lt {path : List Cell} {x1 y1 : ℤ} {current i : ℕ}
    (h : findFallbackAsc path x1 y1 current = some i) : i < path.length := by
  have hm := List.mem_of_find?_eq_some h
  rw [List.mem_map] at hm
  obtain ⟨k, hk, rfl⟩ := hm
  rw [List.mem_range] at hk
  omega

/-- Every point the simplification loop emits is a point of the input path. -/
theorem mem_simplifyAux {g : Grid} {path : List Cell} {maxD : ℤ} :
    ∀ (fuel current : ℕ) (acc : List Cell) (q : Cell),
      q ∈ simplifyAux g path maxD fuel current acc → q ∈ acc ∨ q ∈ path := by
  intro fuel
  induction fuel with
  | zero => intro current acc q h; simp [simplifyAux] at h; exact Or.inl h
  | succ n ih =>
    intro current acc q h
    unfold simplifyAux at h
    split at h
    · rename_i hlt
      have hch : simplifyChoice g path maxD current < path.length := by
        unfold simplifyChoice
        rcases hB : findBestDesc g path (path.getD current (0, 0)).1
            (path.getD current (0, 0)).2 maxD current with _ | i
        · rcases hF : findFallbackAsc path (path.getD current (0, 0)).1
              (path.getD current (0, 0)).2 current with _ | j
          · exact hlt
          · exact findFallbackAsc_lt hF
        · exact findBestDesc_lt hB
      rcases ih (simplifyChoice g path maxD current)
          (path.getD (simplifyChoice g path maxD current) (0, 0) :: acc) q h with h' | h'
      · rcases List.mem_cons.mp h' with rfl | h''
        · exact Or.inr (getD_mem_of_lt hch)
        · exact Or.inl h''
      · exact Or.inr h'
    · simp at h
      exact Or.inl h

/-- The simplified path is a subset of the raw path. -/
theorem mem_simplify_path {g : Grid} {path : List Cell} {maxD : ℤ} {q : Cell}
    (h : q ∈ simplify_path g path maxD) : q ∈ path := by
  unfold simplify_path at h
  split at h
  · exact h
  · rename_i hlen
    rcases mem_simplifyAux _ _ _ q h with h' | h'
    · rcases List.mem_cons.mp h' with rfl | h''
      · exact getD_mem_of_lt (by omega)
      · simp at h''
    · exact h'

/-! ## Concrete instances used by counterexamples and witnesses -/

/-- The navigator's calibration as computed by `load_calibration`'s automatic branch
for the 1600×899 capture the source documents: center `(x + w // 2, y + h // 2)` and
scale 5.0. -/
def cexCfg : NavConfig := ⟨800, 449, fofInt 5, fofInt 5, 0, 0, 1600, 899⟩

/-- The spec's example viewport: screen center (800, 450), scale 5.0, and a map
region whose clickable sub-rectangle contains the example point. -/
def exCfg : NavConfig := ⟨800, 450, fofInt 5, fofInt 5, 0, 0, 1720, 1100⟩

/-- A fully walkable 100×100 raster. -/
def gridAll : Grid := ⟨100, 100, fun _ => true⟩

/-- A fully colored (non-black) 100×100 reference image. -/
def imgColored : ColorImg := ⟨100, 100, fun _ => (200, 200, 200)⟩

/-- A raster where exactly the cells (0, 0) and (20, 0) are walkable. -/
def ringGrid : Grid := ⟨100, 100, fun c => decide (c = ((0 : ℤ), (0 : ℤ)) ∨ c = (20, 0))⟩

/-- A 61×3 corridor: rows 0 and 2 fully walkable, row 1 walkable only at x = 60, so
any route from (0, 0) to (0, 2) must go around through (60, 1). -/
def corridorGrid : Grid :=
  ⟨61, 3, fun c => decide (c.2 = 0 ∨ c.2 = 2 ∨ (c.2 = 1 ∧ c.1 = 60))⟩

/-! ## Claim theorems -/

/-- Claim C1, counterexample.  With the navigator's own calibration (center
(800, 449), scale 5.0, map region 1600×899), a tap request for world target
(800, 500) from believed position (500, 500) transforms to raw screen point
(2300, 449), which lies outside the UI-safe clickable sub-rectangle; instead of
rejecting it, `mundo_to_tela` clamps it to (1480, 449) and `clicar_no_mapa` issues
the tap at that clamped point. -/
theorem C1_counterexample :
    rawTela cexCfg 800 500 500 500 = (2300, 449) ∧
    clique_valido cexCfg (2300, 449) = false ∧
    clicar_no_mapa cexCfg 800 500 500 500 = (1480, 449) ∧
    clique_valido cexCfg (1480, 449) = true := by
  decide

/-- Claim C1, amended.  `mundo_to_tela` always clamps the raw screen coordinate into
the UI-safe clickable rectangle, `clicar_no_mapa` taps exactly at that (possibly
clamped) point, and consequently the caller-side `clique_valido` re-check of the
transformed point can never reject a candidate; the transform agrees with the raw
formula exactly when the raw point already lies inside the rectangle. -/
theorem C1_amended : ∀ (cfg : NavConfig) (xm ym xa ya : ℤ),
    240 ≤ cfg.regionW → 200 ≤ cfg.regionH →
    clicar_no_mapa cfg xm ym xa ya = mundo_to_tela cfg xm ym xa ya ∧
    clique_valido cfg (mundo_to_tela cfg xm ym xa ya) = true ∧
    (clique_valido cfg (rawTela cfg xm ym xa ya) = true →
      mundo_to_tela cfg xm ym xa ya = rawTela cfg xm ym xa ya) := by
  intro cfg xm ym xa ya hw hh
  refine ⟨rfl, ?_, ?_⟩
  · rcases hR : rawTela cfg xm ym xa ya with ⟨rx, ry⟩
    simp only [mundo_to_tela, clique_valido, hR, decide_eq_true_eq]
    omega
  · intro h
    rcases hR : rawTela cfg xm ym xa ya with ⟨rx, ry⟩
    rw [hR] at h
    simp only [clique_valido, decide_eq_true_eq] at h
    simp only [mundo_to_tela, hR, Prod.mk.injEq]
    omega

/-- Claim C1, witness for the amended theorem at the navigator's calibration. -/
theorem C1_amended_witness :
    clicar_no_mapa cexCfg 800 500 500 500 = mundo_to_tela cexCfg 800 500 500 500 ∧
    clique_valido cexCfg (mundo_to_tela cexCfg 800 500 500 500) = true ∧
    (clique_valido cexCfg (rawTela cexCfg 800 500 500 500) = true →
      mundo_to_tela cexCfg 800 500 500 500 = rawTela cexCfg 800 500 500 500) :=
  C1_amended cexCfg 800 500 500 500 (by decide) (by decide)

/-- Claim C4: whenever the raw transformed point is accepted (it lies inside the
clickable sub-rectangle), the planned tap coordinate equals
`(int(centerX + (worldX − believedX)·scale_x), int(centerY + (worldY − believedY)·scale_y))`;
and in the spec's example — screen center (800, 450), scale 5.0, waypoint at world
delta x = 150 — the transform resolves to screen x = 1550. -/
theorem C4_transform :
    (∀ (cfg : NavConfig) (xm ym xa ya : ℤ),
      clique_valido cfg (rawTela cfg xm ym xa ya) = true →
      mundo_to_tela cfg xm ym xa ya =
        (fpyInt (fadd (fofInt cfg.centroX) (fmul (fofInt (xm - xa)) cfg.escalaX)),
         fpyInt (fadd (fofInt cfg.centroY) (fmul (fofInt (ym - ya)) cfg.escalaY)))) ∧
    mundo_to_tela exCfg 950 450 800 450 = (1550, 450) := by
  constructor
  · intro cfg xm ym xa ya h
    show mundo_to_tela cfg xm ym xa ya = rawTela cfg xm ym xa ya
    rcases hR : rawTela cfg xm ym xa ya with ⟨rx, ry⟩
    rw [hR] at h
    simp only [clique_valido, decide_eq_true_eq] at h
    simp only [mundo_to_tela, hR, Prod.mk.injEq]
    omega
  · decide

/-- Claim C4, witness: the general accepted-tap formula applied at the spec's
example configuration. -/
theorem C4_transform_witness :
    mundo_to_tela exCfg 950 450 800 450 =
      (fpyInt (fadd (fofInt exCfg.centroX) (fmul (fofInt (950 - 800)) exCfg.escalaX)),
       fpyInt (fadd (fofInt exCfg.centroY) (fmul (fofInt (450 - 450)) exCfg.escalaY))) :=
  C4_transform.1 exCfg 950 450 800 450 (by decide)

/-- Claim C5, counterexample.  On a fully walkable raster, `get_neighbors` generates
the south-east diagonal move with cost the float literal 1.4, and the real value of
that cost is not √2 (the claim asserts the diagonal cost is exactly √2). -/
theorem C5_counterexample :
    ((2 : ℤ), (2 : ℤ), cost14) ∈ get_neighbors gridAll 1 1 ∧
    F64.toReal cost14 ≠ Real.sqrt 2 := by
  constructor
  · decide
  · intro h
    have h2 : Real.sqrt 2 ^ 2 = 2 := Real.sq_sqrt (by norm_num)
    rw [← h] at h2
    have h3 : ((3152519739159347 : ℝ) * (2 : ℝ) ^ (-51 : ℤ)) ^ 2 = 2 := h2
    rw [show ((2 : ℝ) ^ (-51 : ℤ)) = ((2 : ℝ) ^ (51 : ℕ))⁻¹ by
      rw [zpow_neg]; norm_cast] at h3
    field_simp at h3
    norm_num at h3

/-- Claim C5, amended.  Every neighbor `get_neighbors` generates is either a cardinal
move (squared displacement 1) with cost exactly the float 1.0, or a diagonal move
(squared displacement 2) with cost exactly the float literal 1.4 — not √2. -/
theorem C5_amended : ∀ (g : Grid) (x y : ℤ) (nb : ℤ × ℤ × F64),
    nb ∈ get_neighbors g x y →
    ((nb.1 - x) ^ 2 + (nb.2.1 - y) ^ 2 = 1 ∧ nb.2.2 = ⟨1, 0⟩) ∨
    ((nb.1 - x) ^ 2 + (nb.2.1 - y) ^ 2 = 2 ∧ nb.2.2 = cost14) := by
  intro g x y nb h
  unfold get_neighbors at h
  rw [List.mem_filterMap] at h
  obtain ⟨d, hd, he⟩ := h
  split at he
  · obtain rfl : (x + d.1, y + d.2.1, d.2.2) = nb := by injection he
    simp only [directions, List.mem_cons, List.not_mem_nil, or_false] at hd
    rcases hd with rfl | rfl | rfl | rfl | rfl | rfl | rfl | rfl <;> simp
  · exact absurd he (by simp)

/-- Claim C5, witness for the amended theorem: the south-east diagonal neighbor of
(1, 1) on the fully walkable raster. -/
theorem C5_amended_witness :
    (((2 : ℤ), (2 : ℤ), cost14).1 - 1) ^ 2 + (((2 : ℤ), (2 : ℤ), cost14).2.1 - 1) ^ 2 = 1 ∧
      ((2 : ℤ), (2 : ℤ), cost14).2.2 = ⟨1, 0⟩ ∨
    (((2 : ℤ), (2 : ℤ), cost14).1 - 1) ^ 2 + (((2 : ℤ), (2 : ℤ), cost14).2.1 - 1) ^ 2 = 2 ∧
      ((2 : ℤ), (2 : ℤ), cost14).2.2 = cost14 :=
  C5_amended gridAll 1 1 ((2 : ℤ), (2 : ℤ), cost14) (by decide)

/-- Claim C8, counterexample.  A concrete mid-session tick — step 5, stuck counter 0,
believed position different from the fresh fix, an active path — still begins with a
full Position Estimator call: the iteration's effect trace contains `gpsFix` although
the tick is neither session start nor a stuck-detection event (and the loop has no
move-count interval mechanism at all). -/
theorem C8_counterexample :
    NavEffect.gpsFix ∈
      (navStep cexCfg gridAll imgColored (9999, 9999)
        ⟨5, 0, 0, some (50, 50), none, some [(0, 0), (5, 0)]⟩ (0, 0) false).1 ∧
    (⟨5, 0, 0, some (50, 50), none, some [(0, 0), (5, 0)]⟩ : NavState).step = 5 ∧
    (⟨5, 0, 0, some (50, 50), none, some [(0, 0), (5, 0)]⟩ : NavState).cliques = 0 ∧
    (⟨5, 0, 0, some (50, 50), none, some [(0, 0), (5, 0)]⟩ : NavState).posAnterior ≠
      some ((0 : ℤ), (0 : ℤ)) := by
  decide

/-- Claim C8, amended.  The navigation loop re-localizes on every tick: whatever the
state, the first externally observable action of every loop iteration is a
`get_current_position` call (the full image-correlation Position Estimator). -/
theorem C8_amended : ∀ (cfg : NavConfig) (g : Grid) (img : ColorImg) (dest : Cell)
    (st : NavState) (gpsPos : Cell) (chegou : Bool),
    ((navStep cfg g img dest st gpsPos chegou).1).head? = some NavEffect.gpsFix := by
  intro cfg g img dest st gpsPos chegou
  rfl

/-- Claim C9: the Position Estimator's confidence is the fixed piecewise function of
the correlation error alone computed at source lines 274-282: error < 0.1 gives 95;
0.1 ≤ error < 0.2 gives 85; 0.2 ≤ error < 0.3 gives 70; and for 0.3 ≤ error the fixed
formula `max 50 (100 − int(error·100))`, independent of any other input. -/
theorem C9_confidence : ∀ e : F64,
    (flt e f01 = true → confidence_of_error e = 95) ∧
    (flt e f01 = false → flt e f02 = true → confidence_of_error e = 85) ∧
    (flt e f01 = false → flt e f02 = false → flt e f03 = true →
      confidence_of_error e = 70) ∧
    (flt e f01 = false → flt e f02 = false → flt e f03 = false →
      confidence_of_error e = max 50 (100 - fpyInt (fmul e (fofInt 100)))) := by
  intro e
  refine ⟨fun h1 => by simp [confidence_of_error, h1],
          fun h1 h2 => by simp [confidence_of_error, h1, h2],
          fun h1 h2 h3 => by simp [confidence_of_error, h1, h2, h3],
          fun h1 h2 h3 => by simp [confidence_of_error, h1, h2, h3]⟩

/-- Claim C9, witness: the four ranges exercised at the errors 0.0, 0.1, 0.2 and 0.3
(as float64 values). -/
theorem C9_confidence_witness :
    confidence_of_error (fofInt 0) = 95 ∧
    confidence_of_error f01 = 85 ∧
    confidence_of_error f02 = 70 ∧
    confidence_of_error f03 = max 50 (100 - fpyInt (fmul f03 (fofInt 100))) :=
  ⟨(C9_confidence (fofInt 0)).1 (by decide),
   (C9_confidence f01).2.1 (by decide) (by decide),
   (C9_confidence f02).2.2.1 (by decide) (by decide) (by decide),
   (C9_confidence f03).2.2.2 (by decide) (by decide) (by decide)⟩

/-- Claim C10: each of the three walkability queries — the pathfinder's
`is_walkable`, the navigator's `is_walkable`, and `_tem_chao` — is total on all
integer coordinates: the guarded computation always produces a value (the underlying
raster access stays in bounds), and any out-of-range coordinate, negative included,
yields `False`. -/
theorem C10_walkable_total : ∀ (g : Grid) (img : ColorImg) (x y : ℤ),
    is_walkable_total g x y = some (is_walkable g x y) ∧
    tem_chao_total img x y = some (tem_chao img x y) ∧
    nav_is_walkable_total img g x y = some (nav_is_walkable img g x y) ∧
    (¬ (0 ≤ x ∧ x < g.width ∧ 0 ≤ y ∧ y < g.height) → is_walkable g x y = false) ∧
    (¬ (0 ≤ x ∧ x < img.width ∧ 0 ≤ y ∧ y < img.height) →
      tem_chao img x y = false ∧ nav_is_walkable img g x y = false) := by
  intro g img x y
  refine ⟨?_, ?_, ?_, ?_, ?_⟩
  · unfold is_walkable_total mask_access is_walkable
    split <;> rfl
  · unfold tem_chao_total pix_access tem_chao
    split <;> simp_all
  · unfold nav_is_walkable_total pix_access nav_is_walkable
    split <;> simp_all
  · intro h
    unfold is_walkable
    rw [if_neg h]
  · intro h
    unfold tem_chao nav_is_walkable
    rw [if_neg h, if_neg h]
    exact ⟨rfl, rfl⟩

/-- Claim C10, witness: out-of-range coordinates, including negative ones, answer
`False` without any raster access. -/
theorem C10_walkable_total_witness :
    is_walkable_total gridAll (-3) 7 = some (is_walkable gridAll (-3) 7) ∧
    tem_chao_total imgColored (-3) 7 = some (tem_chao imgColored (-3) 7) ∧
    nav_is_walkable_total imgColored gridAll (-3) 7 =
      some (nav_is_walkable imgColored gridAll (-3) 7) ∧
    is_walkable gridAll (-3) 7 = false ∧
    tem_chao imgColored (-3) 7 = false ∧ nav_is_walkable imgColored gridAll (-3) 7 = false :=
  ⟨(C10_walkable_total gridAll imgColored (-3) 7).1,
   (C10_walkable_total gridAll imgColored (-3) 7).2.1,
   (C10_walkable_total gridAll imgColored (-3) 7).2.2.1,
   (C10_walkable_total gridAll imgColored (-3) 7).2.2.2.1 (by decide),
   ((C10_walkable_total gridAll imgColored (-3) 7).2.2.2.2 (by decide)).1,
   ((C10_walkable_total gridAll imgColored (-3) 7).2.2.2.2 (by decide)).2⟩

/-- The center offset belongs to every elliptic structuring element. -/
theorem zero_mem_kernelOffsets (m : ℕ) : ((0 : ℤ), (0 : ℤ)) ∈ kernelOffsets m := by
  unfold kernelOffsets
  rw [List.mem_flatMap]
  refine ⟨m, ?_, ?_⟩
  · rw [List.mem_range]
    omega
  · rw [List.mem_map]
    refine ⟨ellipseHalfWidth m ((m : ℤ) - (m : ℤ)).natAbs, ?_, ?_⟩
    · rw [List.mem_range]
      omega
    · simp

/-- Claim C7: before dilation a cell is walkable iff its pixel's maximum channel
exceeds the near-black threshold 10; and for any margin m > 0, a cell still walkable
after the obstacle mask is dilated by the circular structuring element of radius m
was already walkable before — dilation never turns a non-walkable cell walkable. -/
theorem C7_raster : ∀ (img : ColorImg) (m : ℕ) (x y : ℤ),
    0 < m →
    (create_walkable_mask img x y = true ↔
      10 < max (img.pix (x, y)).1 (max (img.pix (x, y)).2.1 (img.pix (x, y)).2.2)) ∧
    (0 ≤ x ∧ x < img.width ∧ 0 ≤ y ∧ y < img.height →
      apply_wall_margin (create_walkable_mask img) img.width img.height m x y = true →
      create_walkable_mask img x y = true) := by
  intro img m x y _
  constructor
  · unfold create_walkable_mask coloridoPix
    simp [lt_max_iff]
  · intro hb happ
    by_contra hc
    rw [Bool.not_eq_true] at hc
    unfold apply_wall_margin at happ
    rw [Bool.not_eq_eq_eq_not, Bool.not_true, List.any_eq_false] at happ
    have h0 := happ ((0 : ℤ), (0 : ℤ)) (zero_mem_kernelOffsets m)
    simp only [add_zero, hc, Bool.not_false, Bool.and_true, decide_eq_true_eq] at h0
    exact h0 hb

/-- Claim C7, witness: on a fully colored image with margin 1, the origin pixel is
walkable after dilation and its max channel exceeds the threshold. -/
theorem C7_raster_witness :
    create_walkable_mask imgColored 0 0 = true ∧
    10 < max (imgColored.pix (0, 0)).1
        (max (imgColored.pix (0, 0)).2.1 (imgColored.pix (0, 0)).2.2) :=
  have h := (C7_raster imgColored 1 0 0 (by decide)).2 (by decide) (by decide)
  ⟨h, ((C7_raster imgColored 1 0 0 (by decide)).1).mp h⟩

/-- Claim C6, counterexample.  On a raster where only (0, 0) and (20, 0) are
walkable, start (0, 0) is walkable, goal (10, 0) is not, the expanding-ring scan does
find the walkable cell (20, 0) and substitutes it — yet `find_path` still returns no
path, because the substituted goal is unreachable; so "returns no path only when no
ring contains a walkable cell" fails. -/
theorem C6_counterexample :
    is_walkable ringGrid 0 0 = true ∧
    is_walkable ringGrid 10 0 = false ∧
    effective_goal ringGrid 10 0 = some (20, 0) ∧
    find_path ringGrid 0 0 10 0 50000 = none := by
  decide

/-- Claim C6, amended.  If the start cell is not walkable the search fails
immediately; if the goal cell is not walkable, the goal-substitution stage fails
(returning no path) exactly when no expanding-ring candidate is walkable, and
otherwise substitutes the first walkable candidate in ring scan order — after which
the search itself may still fail. -/
theorem C6_start_goal : ∀ (g : Grid) (sx sy gx gy : ℤ) (maxIter : ℕ),
    (is_walkable g sx sy = false → find_path g sx sy gx gy maxIter = none) ∧
    (is_walkable g gx gy = false →
      ((∀ c ∈ ringCandidates gx gy, is_walkable g c.1 c.2 = false) →
        find_path g sx sy gx gy maxIter = none) ∧
      (∀ c, effective_goal g gx gy = some c →
        ∃ pre post, ringCandidates gx gy = pre ++ c :: post ∧
          is_walkable g c.1 c.2 = true ∧
          ∀ d ∈ pre, is_walkable g d.1 d.2 = false)) := by
  intro g sx sy gx gy maxIter
  constructor
  · intro h
    unfold find_path
    rw [if_pos (by simp [h])]
  · intro hg
    constructor
    · intro hall
      have hfind : (ringCandidates gx gy).find? (fun c => is_walkable g c.1 c.2) = none := by
        rw [List.find?_eq_none]
        intro c hc
        simp [hall c hc]
      unfold find_path
      split
      · rfl
      · unfold effective_goal
        rw [if_neg (by simp [hg]), hfind]
    · intro c hc
      unfold effective_goal at hc
      rw [if_neg (by simp [hg])] at hc
      obtain ⟨l1, l2, heq, hpa, hall⟩ := find?_split _ _ _ hc
      exact ⟨l1, l2, heq, hpa, fun d hd => by simpa using hall d hd⟩

/-- Claim C6, witness: an unwalkable start fails immediately, and on `ringGrid` the
substitution picks (20, 0), the first walkable ring candidate in scan order. -/
theorem C6_start_goal_witness :
    find_path ringGrid 5 5 10 0 50000 = none ∧
    (∃ pre post, ringCandidates 10 0 = pre ++ ((20 : ℤ), (0 : ℤ)) :: post ∧
      is_walkable ringGrid 20 0 = true ∧
      ∀ d ∈ pre, is_walkable ringGrid d.1 d.2 = false) :=
  ⟨(C6_start_goal ringGrid 5 5 10 0 50000).1 (by decide),
   ((C6_start_goal ringGrid 0 0 10 0 50000).2 (by decide)).2 (20, 0) (by decide)⟩

/-- Claim C2, counterexample.  With the navigator's calibration (field of view
half-extents 160 × 89), believed position (0, 0), destination (9999, 9999) and a
path whose remaining points are all closer than the 30 px minimum click distance,
the waypoint-selection step falls back to the literal destination and selects the
waypoint (9999, 9999), which lies far outside the field of view. -/
theorem C2_counterexample :
    (selectWaypoint cexCfg gridAll imgColored (some [(0, 0), (5, 0)]) 0 0 0 0 9999 9999
      none) = ⟨some (9999, 9999), 0, .destinoFinal⟩ ∧
    raio_visivel_x cexCfg = 160 ∧ raio_visivel_y cexCfg = 89 ∧
    ¬ ((9999 : ℤ) - 0 ≤ 160) := by
  decide

/-- Claim C2, amended.  A waypoint selected by the direct-destination branch or by
the visible-points branch always lies within the field of view
(`player ± raio_visivel`); the fallback branches (advance-index, literal-destination,
rescue, no-path, stale-reuse) carry no such guarantee. -/
theorem C2_amended : ∀ (cfg : NavConfig) (g : Grid) (img : ColorImg)
    (path? : Option (List Cell)) (ind0 cliques : ℕ) (xa ya dx dy : ℤ)
    (prevWp : Option Cell) (wp : Cell),
    (selectWaypoint cfg g img path? ind0 cliques xa ya dx dy prevWp).binding = some wp →
    ((selectWaypoint cfg g img path? ind0 cliques xa ya dx dy prevWp).kind = SelKind.direto ∨
     (selectWaypoint cfg g img path? ind0 cliques xa ya dx dy prevWp).kind = SelKind.viaPath) →
    xa - raio_visivel_x cfg ≤ wp.1 ∧ wp.1 ≤ xa + raio_visivel_x cfg ∧
    ya - raio_visivel_y cfg ≤ wp.2 ∧ wp.2 ≤ ya + raio_visivel_y cfg := by
  intro cfg g img path? ind0 cliques xa ya dx dy prevWp wp hb hk
  rcases hr : selectWaypoint cfg g img path? ind0 cliques xa ya dx dy prevWp with ⟨b, ind, k⟩
  rw [hr] at hb hk
  simp only at hb hk
  unfold selectWaypoint at hr
  split at hr
  · rename_i hU
    split at hr
    · cases hr
      cases hb
      simp only [Bool.and_eq_true] at hU
      have hv := hU.1.1.1.1
      unfold visivel at hv
      rw [decide_eq_true_eq] at hv
      exact ⟨hv.1, hv.2.1, hv.2.2.1, hv.2.2.2⟩
    · split at hr
      · cases hr
        rcases hk with h | h <;> simp at h
      · cases hr
        rcases hk with h | h <;> simp at h
  · split at hr
    · rename_i path heq
      unfold selectFromPath at hr
      split at hr
      · cases hr
        rcases hk with h | h <;> simp at h
      · split at hr
        · split at hr
          · cases hr
            rcases hk with h | h <;> simp at h
          · cases hr
            rcases hk with h | h <;> simp at h
        · split at hr
          · rename_i t hE
            cases hr
            cases hb
            unfold escolher_visivel at hE
            have ht := mem_sortDesc (List.mem_of_find?_eq_some hE)
            have hp := mem_pontos_visiveis_visivel ht
            unfold visivel at hp
            rw [decide_eq_true_eq] at hp
            exact ⟨hp.1, hp.2.1, hp.2.2.1, hp.2.2.2⟩
          · split at hr
            · cases hr
              rcases hk with h | h <;> simp at h
            · cases hr
              rcases hk with h | h <;> simp at h
    · cases hr
      rcases hk with h | h <;> simp at h

/-- Claim C2, witness for the amended theorem: a visible-branch selection at believed
position (50, 50) picking path point (90, 50) indeed lies within the field of view. -/
theorem C2_amended_witness :
    (50 : ℤ) - raio_visivel_x cexCfg ≤ ((90 : ℤ), (50 : ℤ)).1 ∧
    ((90 : ℤ), (50 : ℤ)).1 ≤ 50 + raio_visivel_x cexCfg ∧
    (50 : ℤ) - raio_visivel_y cexCfg ≤ ((90 : ℤ), (50 : ℤ)).2 ∧
    ((90 : ℤ), (50 : ℤ)).2 ≤ 50 + raio_visivel_y cexCfg :=
  C2_amended cexCfg gridAll imgColored (some [(50, 50), (90, 50)]) 0 0 50 50 2000 2000
    none ((90 : ℤ), (50 : ℤ)) (by decide) (Or.inr (by decide))

/-- Claim C3, counterexample.  On the corridor raster, the raw A* path from (0, 0)
to (0, 2) (121 cells, all walkable) simplifies to a path that violates the claimed
property: its waypoints are all walkable, but the distance-only fallback of
`simplify_path` produces the consecutive pair (59, 0) → (9, 2), whose straight
segment crosses the wall row, so line of sight fails. -/
theorem C3_counterexample :
    (find_path corridorGrid 0 0 0 2 50000).map
      (fun p => (simplifiedOk corridorGrid (simplify_path corridorGrid p 100),
        (simplify_path corridorGrid p 100).all (fun c => is_walkable corridorGrid c.1 c.2),
        p.all (fun c => is_walkable corridorGrid c.1 c.2))) =
      some (false, true, true) := by
  decide

/-- Claim C3, amended.  Every waypoint of a simplified path is a point of the raw
path, so when the raw path is fully walkable (as A* paths are) every waypoint stays
walkable; and every consecutive pair accepted by the primary backward scan has line
of sight — but the distance-only fallbacks give no line-of-sight guarantee. -/
theorem C3_amended : ∀ (g : Grid) (path : List Cell) (maxD : ℤ),
    ((∀ c ∈ path, is_walkable g c.1 c.2 = true) →
      ∀ q ∈ simplify_path g path maxD, is_walkable g q.1 q.2 = true) ∧
    (∀ (x1 y1 : ℤ) (current i : ℕ),
      findBestDesc g path x1 y1 maxD current = some i →
      has_line_of_sight g x1 y1 (path.getD i (0, 0)).1 (path.getD i (0, 0)).2 = true) := by
  intro g path maxD
  constructor
  · intro hall q hq
    exact hall q (mem_simplify_path hq)
  · intro x1 y1 current i h
    have hp := List.find?_some h
    simp only [Bool.and_eq_true] at hp
    exact hp.2

/-- Claim C3, witness for the amended theorem on a two-point corridor path. -/
theorem C3_amended_witness : is_walkable corridorGrid 0 0 = true :=
  (C3_amended corridorGrid [(0, 0), (1, 0)] 100).1 (by decide) (0, 0) (by decide)
